import Mathlib

/-!
# rtsp2hls-server: the stream session lifecycle manager

A shallow embedding of `Sveltekit-main.go`.  The session object is threaded
explicitly through every handler; the mutex `mu` held from the first
statement after the method check to the return of each handler (and around
every monitor iteration) is rendered by making each handler call and each
monitor iteration one function application.  External commands append an
`Event` (the command together with its outcome) to a chronological trace;
their outcomes and the reading of the clock are inputs (`Env`).  Calls to
`log` are not part of the model.
-/

namespace Rtsp2Hls

/-! ## Time -/

/-- A `time.Time`, counted in nanoseconds from the zero `Time` value. -/
abbrev Time := Int

/-- A `time.Duration`, in nanoseconds. -/
abbrev Duration := Int

/-- The constant `time.Second`. -/
def Second : Duration := 1000000000

/-- The constant `time.Minute`. -/
def Minute : Duration := 60 * Second

/-- The largest `time.Duration`, `1<<63 - 1` nanoseconds (about 292 years). -/
def MaxDuration : Duration := 9223372036854775807

/-- The smallest `time.Duration`, `-1 << 63` nanoseconds. -/
def MinDuration : Duration := -9223372036854775808

/-- The call `time.Since(t)` when the clock reads `now`, that is
`time.Now().Sub(t)`: the difference of the two instants, replaced by the
largest or the smallest `Duration` when it does not fit in one. -/
def Since (now t : Time) : Duration :=
  if now - t > MaxDuration then MaxDuration
  else if now - t < MinDuration then MinDuration
  else now - t

/-! ## Errors, commands and the trace -/

/-- A Go `error` value: `none` is `nil`, `some msg` a non-nil error. -/
abbrev GoError := Option String

/-- The combined output of a command, a `[]byte`. -/
abbrev Bytes := List (Fin 256)

/-- One external action of the daemon together with what it returned.
`stop` is `systemctl stop camera-stream.service`, `sleep` is `time.Sleep`,
`pgrep` is `pgrep ffmpeg`, `pkill` is `pkill -9 ffmpeg`, and `start` is the
supervisor start command run by `startService`. -/
inductive Event where
  | start (err : GoError)
  | stop (err : GoError)
  | sleep (d : Duration)
  | pgrep (output : Bytes)
  | pkill (err : GoError)
deriving DecidableEq, Repr

/-- Is the event a start command (whatever its outcome)? -/
def Event.isStart : Event → Bool
  | .start _ => true
  | _ => false

/-- Is the event a supervisor stop command (whatever its outcome)? -/
def Event.isStop : Event → Bool
  | .stop _ => true
  | _ => false

/-- What the outside world answers during one handler call or one monitor
iteration: the clock reading returned by `time.Now()` and the outcome of
each external command, should it be run. -/
structure Env where
  now : Time
  startErr : GoError
  stopErr : GoError
  pgrepOut : Bytes
  killErr : GoError
deriving DecidableEq, Repr

/-! ## The session -/

/-- The struct `StreamManager` without its mutex. -/
structure StreamManager where
  isActive : Bool
  lastHeartbeat : Time
  timeoutDuration : Duration
deriving DecidableEq, Repr

/-- The session object together with the commands issued so far, oldest
first. -/
structure World where
  sm : StreamManager
  trace : List Event
deriving DecidableEq, Repr

/-- The period of the ticker created in `monitor`. -/
def monitorInterval : Duration := 30 * Second

/-- The constructor `NewStreamManager`: the zero values of `isActive` and
`lastHeartbeat` and a timeout of five minutes.  Spawning the monitor
goroutine is rendered by the `tick` steps of the transition systems below. -/
def NewStreamManager : StreamManager :=
  { isActive := false, lastHeartbeat := 0, timeoutDuration := 5 * Minute }

/-! ## HTTP plumbing -/

/-- The JSON envelope `Response`. -/
structure Response where
  Status : String
  Message : String
  URL : String
deriving DecidableEq, Repr

/-- The members `encoding/json` emits for a `Response`, following the struct
tags: `url` carries `omitempty` and is dropped when the string is empty. -/
def Response.jsonFields (r : Response) : List (String × String) :=
  [("status", r.Status), ("message", r.Message)] ++
    (if r.URL = "" then [] else [("url", r.URL)])

/-- A header map with single values, as built by `Header.Set`. -/
abbrev Header := List (String × String)

/-- The method `Header.Set`: replaces whatever was stored under the key.
Every key used by the program is already in canonical form. -/
def Header.Set (h : Header) (key value : String) : Header :=
  (key, value) :: h.filter (fun p => p.1 != key)

/-- The method `Header.Get`, with `none` for an absent key. -/
def Header.Get (h : Header) (key : String) : Option String :=
  (h.find? (fun p => p.1 == key)).map Prod.snd

/-- One write to the response body. -/
inductive Chunk where
  | line (s : String)
  | json (r : Response)
deriving DecidableEq, Repr

/-- An `http.ResponseWriter`: the header map the handler edits, the status
line and headers once they are sent, and the body written so far. -/
structure ResponseWriter where
  header : Header
  sent : Option (Nat × Header)
  body : List Chunk
deriving DecidableEq, Repr

/-- A writer on which nothing has happened yet. -/
def ResponseWriter.fresh : ResponseWriter :=
  { header := [], sent := none, body := [] }

/-- The method `WriteHeader`: sends the status line with the headers as they
stand; a second call has no effect. -/
def ResponseWriter.WriteHeader (w : ResponseWriter) (code : Nat) : ResponseWriter :=
  match w.sent with
  | some _ => w
  | none => { w with sent := some (code, w.header) }

/-- The method `Write`: sends status 200 first when no status was sent. -/
def ResponseWriter.Write (w : ResponseWriter) (c : Chunk) : ResponseWriter :=
  let w := w.WriteHeader 200
  { w with body := w.body ++ [c] }

/-- The status code the client receives. -/
def ResponseWriter.statusCode (w : ResponseWriter) : Nat :=
  match w.sent with
  | some (code, _) => code
  | none => 200

/-- The headers the client receives. -/
def ResponseWriter.sentHeader (w : ResponseWriter) : Header :=
  match w.sent with
  | some (_, h) => h
  | none => w.header

/-- The constant `http.StatusOK`. -/
def StatusOK : Nat := 200

/-- The constant `http.StatusNotFound`. -/
def StatusNotFound : Nat := 404

/-- The constant `http.StatusMethodNotAllowed`. -/
def StatusMethodNotAllowed : Nat := 405

/-- The constant `http.StatusInternalServerError`. -/
def StatusInternalServerError : Nat := 500

/-- The constant `http.MethodPost`. -/
def MethodPost : String := "POST"

/-- The library call `http.Error(w, error, code)`: plain-text content type,
the status code, then the message as one line.  Recent versions of the
library first delete a `Content-Length` header, which this program never
sets. -/
def httpError (w : ResponseWriter) (error : String) (code : Nat) : ResponseWriter :=
  let w := { w with header := w.header.Set "Content-Type" "text/plain; charset=utf-8" }
  let w := { w with header := w.header.Set "X-Content-Type-Options" "nosniff" }
  let w := w.WriteHeader code
  w.Write (Chunk.line error)

/-- The function `sendJSONResponse`. -/
def sendJSONResponse (w : ResponseWriter) (resp : Response) : ResponseWriter :=
  let w := { w with header := w.header.Set "Content-Type" "application/json" }
  w.Write (Chunk.json resp)

/-- The part of `*http.Request` the program reads. -/
structure Request where
  Method : String
deriving DecidableEq, Repr

/-- An `http.HandlerFunc` closed over the session. -/
abbrev HandlerFunc := Env → ResponseWriter → Request → World → ResponseWriter × World

/-- The middleware `enableCors`. -/
def enableCors (next : HandlerFunc) : HandlerFunc := fun env w r σ =>
  let w := { w with header := w.header.Set "Access-Control-Allow-Origin" "*" }
  let w := { w with header := w.header.Set "Access-Control-Allow-Methods" "POST, GET, OPTIONS" }
  let w := { w with header := w.header.Set "Access-Control-Allow-Headers" "Accept, Content-Type" }
  if r.Method = "OPTIONS" then
    (w.WriteHeader StatusOK, σ)
  else
    next env w r σ

/-! ## Service control -/

/-- The method `stopService`. -/
def stopService (env : Env) (σ : World) : GoError × World :=
  let σ := { σ with trace := σ.trace ++ [Event.stop env.stopErr] }
  match env.stopErr with
  | some err => (some err, σ)
  | none =>
    let σ := { σ with trace := σ.trace ++ [Event.sleep (2 * Second)] }
    let σ := { σ with trace := σ.trace ++ [Event.pgrep env.pgrepOut] }
    let σ :=
      if env.pgrepOut.length > 0 then
        { σ with trace := σ.trace ++ [Event.pkill env.killErr] }
      else σ
    (none, σ)

/-- Modelled from the spec: the body of the method `startService`, which
`InitiateStream` calls, is missing from the source file.  Following the
service controller's `start` operation, it asks the supervisor to start the
service (one start command) and returns an error exactly when the supervisor
fails. -/
def startService (env : Env) (σ : World) : GoError × World :=
  (env.startErr, { σ with trace := σ.trace ++ [Event.start env.startErr] })

/-! ## Handlers and monitor -/

/-- The handler `InitiateStream`. -/
def InitiateStream : HandlerFunc := fun env w r σ =>
  if r.Method ≠ MethodPost then
    (httpError w "Method not allowed" StatusMethodNotAllowed, σ)
  else if σ.sm.isActive then
    (sendJSONResponse w
      { Status := "success", Message := "Stream already active", URL := "/playlist.m3u8" }, σ)
  else
    match startService env σ with
    | (some _, σ) => (httpError w "Failed to start stream" StatusInternalServerError, σ)
    | (none, σ) =>
      let σ := { σ with sm := { σ.sm with isActive := true } }
      let σ := { σ with sm := { σ.sm with lastHeartbeat := env.now } }
      (sendJSONResponse w
        { Status := "success", Message := "Stream initiated", URL := "/playlist.m3u8" }, σ)

/-- The handler `Heartbeat`. -/
def Heartbeat : HandlerFunc := fun env w r σ =>
  if r.Method ≠ MethodPost then
    (httpError w "Method not allowed" StatusMethodNotAllowed, σ)
  else if !σ.sm.isActive then
    (httpError w "No active stream" StatusNotFound, σ)
  else
    let σ := { σ with sm := { σ.sm with lastHeartbeat := env.now } }
    (sendJSONResponse w { Status := "success", Message := "Heartbeat received", URL := "" }, σ)

/-- One iteration of the loop of `monitor`, from taking the lock to releasing
it. -/
def monitorTick (env : Env) (σ : World) : World :=
  if σ.sm.isActive && decide (Since env.now σ.sm.lastHeartbeat > σ.sm.timeoutDuration) then
    let σ := (stopService env σ).2
    { σ with sm := { σ.sm with isActive := false } }
  else σ

/-- The loop of `monitor` over the ticks delivered so far, one `Env` per
tick. -/
def monitor (ticks : List Env) (σ : World) : World :=
  ticks.foldl (fun σ env => monitorTick env σ) σ

/-- The handler registered for `/initiate` in `main`. -/
def initiateEndpoint : HandlerFunc := enableCors InitiateStream

/-- The handler registered for `/heartbeat` in `main`. -/
def heartbeatEndpoint : HandlerFunc := enableCors Heartbeat

/-- A POST request. -/
def post : Request := { Method := "POST" }

/-- A writer with header map `h` on which nothing was sent yet. -/
def unsent (h : Header) : ResponseWriter := { header := h, sent := none, body := [] }

/-- The body as the client reads it when it is one JSON document: the
members of the envelope, in order. -/
def ResponseWriter.jsonBody (w : ResponseWriter) : Option (List (String × String)) :=
  match w.body with
  | [Chunk.json r] => some r.jsonFields
  | _ => none

/-- The body as the client reads it when it is one line of plain text. -/
def ResponseWriter.textBody (w : ResponseWriter) : Option String :=
  match w.body with
  | [Chunk.line s] => some s
  | _ => none

/-- The events a step appended to the trace `before`. -/
def issued (before after : List Event) : List Event :=
  after.drop before.length

/-! ## The daemon as a transition system -/

/-- One atomic step of the daemon: a request of any method served by one of
the two registered endpoints, or one monitor iteration, each under an
arbitrary outside world. -/
inductive Step : World → World → Prop
  | initiate (env : Env) (r : Request) (σ : World) :
      Step σ (initiateEndpoint env ResponseWriter.fresh r σ).2
  | heartbeat (env : Env) (r : Request) (σ : World) :
      Step σ (heartbeatEndpoint env ResponseWriter.fresh r σ).2
  | tick (env : Env) (σ : World) : Step σ (monitorTick env σ)

/-- The states reachable from the session built by `NewStreamManager` with
an empty trace. -/
inductive Reachable : World → Prop
  | init : Reachable { sm := NewStreamManager, trace := [] }
  | step {σ σ' : World} : Reachable σ → Step σ σ' → Reachable σ'

/-- The session events of the trace: `some true` for a successful start,
`some false` for a stop attempt, nothing for the rest. -/
def Event.sessionKind : Event → Option Bool
  | .start none => some true
  | .stop _ => some false
  | _ => none

/-- The successful starts (`true`) and stop attempts (`false`) of a trace, in
order. -/
def sessionKinds (t : List Event) : List Bool := t.filterMap Event.sessionKind

/-- The sequence start, stop, start, stop, ... of length `n`. -/
def alternating (n : Nat) : List Bool := (List.range n).map (fun i => decide (i % 2 = 0))

/-- Whether a session is open after the trace: the latest session event, if
any, is a successful start. -/
def sessionOpen (t : List Event) : Bool :=
  t.foldl (fun o e => match e.sessionKind with
    | some b => b
    | none => o) false

/-- The daemon with a clock: the session and trace, the current instant and
the instant of the latest tick of the monitor's ticker (its creation before
the first tick). -/
structure Timed where
  world : World
  now : Time
  lastTick : Time
deriving DecidableEq, Repr

/-- One step of the timed daemon.  Time passes by `delay`, never backwards
and never beyond one `monitorInterval` after the latest tick; handlers and
the monitor iteration run atomically at the current instant, which is what
`time.Now()` returns to them. -/
inductive TStep : Timed → Timed → Prop
  | delay (d : Duration) (s : Timed) (hd : 0 ≤ d)
      (hnext : s.now + d - s.lastTick ≤ monitorInterval) :
      TStep s { s with now := s.now + d }
  | initiate (env : Env) (r : Request) (s : Timed) (hnow : env.now = s.now) :
      TStep s { s with world := (initiateEndpoint env ResponseWriter.fresh r s.world).2 }
  | heartbeat (env : Env) (r : Request) (s : Timed) (hnow : env.now = s.now) :
      TStep s { s with world := (heartbeatEndpoint env ResponseWriter.fresh r s.world).2 }
  | tick (env : Env) (s : Timed) (hnow : env.now = s.now) :
      TStep s { s with world := monitorTick env s.world, lastTick := s.now }

/-- The timed states reachable when the daemon starts at instant `t0`. -/
inductive TReachable : Timed → Prop
  | init (t0 : Time) :
      TReachable { world := { sm := NewStreamManager, trace := [] }, now := t0, lastTick := t0 }
  | step {s s' : Timed} : TReachable s → TStep s s' → TReachable s'

/-! ## Concrete inputs used by the examples -/

/-- An outside world in which every command succeeds and no encoder
lingers; the clock reads 400 s. -/
def calmEnv : Env :=
  { now := 400 * Second, startErr := none, stopErr := none, pgrepOut := [], killErr := none }

/-- An outside world in which the supervisor refuses to start the service. -/
def failingEnv : Env :=
  { now := 400 * Second, startErr := some "exit status 1", stopErr := some "exit status 1",
    pgrepOut := [49, 50, 10], killErr := some "exit status 1" }

/-- The session right after start-up. -/
def idleWorld : World := { sm := NewStreamManager, trace := [] }

/-- A session started at 10 s. -/
def activeWorld : World :=
  { sm := { isActive := true, lastHeartbeat := 10 * Second, timeoutDuration := 5 * Minute },
    trace := [Event.start none] }

/-- An active session last refreshed at the zero instant whose timeout is the
largest `Duration`. -/
def saturatedWorld : World :=
  { sm := { isActive := true, lastHeartbeat := 0, timeoutDuration := MaxDuration },
    trace := [Event.start none] }

/-- An outside world whose clock reads 1 January 2000, which is
63082281600 s after the zero instant. -/
def lateEnv : Env :=
  { now := 63082281600 * Second, startErr := none, stopErr := none, pgrepOut := [],
    killErr := none }

/-- An outside world whose clock reads 310 s and one nanosecond, just past the
deadline of `activeWorld`; the supervisor stop fails. -/
def overdueEnv : Env :=
  { now := 310 * Second + 1, startErr := none, stopErr := some "exit status 1",
    pgrepOut := [], killErr := none }

/-- The session after one successful initiate at 400 s from start-up. -/
def startedWorld : World :=
  (initiateEndpoint calmEnv ResponseWriter.fresh post idleWorld).2

/-- The timed daemon started at 400 s and asked at once, with success, to
start the stream. -/
def startedTimed : Timed :=
  { world := startedWorld, now := 400 * Second, lastTick := 400 * Second }

/-- The events of one run of `stopService`. -/
def stopEvents (env : Env) : List Event :=
  if env.stopErr.isSome then [Event.stop env.stopErr]
  else if env.pgrepOut = [] then
    [Event.stop none, Event.sleep (2 * Second), Event.pgrep env.pgrepOut]
  else
    [Event.stop none, Event.sleep (2 * Second), Event.pgrep env.pgrepOut,
     Event.pkill env.killErr]

/-! ## Vocabulary of the proofs -/

/-- The header map `enableCors` hands on, starting from an empty one. -/
def corsHeader : Header :=
  ((Header.Set [] "Access-Control-Allow-Origin" "*").Set
    "Access-Control-Allow-Methods" "POST, GET, OPTIONS").Set
    "Access-Control-Allow-Headers" "Accept, Content-Type"

/-- A handler whose response is always written by `sendJSONResponse` or by
`http.Error` on the writer it was given. -/
def WritesOnce (next : HandlerFunc) : Prop :=
  ∀ env w r σ, (∃ resp, (next env w r σ).1 = sendJSONResponse w resp) ∨
    (∃ msg code, (next env w r σ).1 = httpError w msg code)

/-- What a request can do to the session and the trace when the clock reads
`now`: nothing; refresh an active session; start an idle one; or fail to
start an idle one. -/
def HandlerShape (now : Time) (σ σ' : World) : Prop :=
  σ' = σ ∨
  (σ.sm.isActive = true ∧
    σ' = { sm := { isActive := true, lastHeartbeat := now,
                   timeoutDuration := σ.sm.timeoutDuration }, trace := σ.trace }) ∨
  (σ.sm.isActive = false ∧
    σ' = { sm := { isActive := true, lastHeartbeat := now,
                   timeoutDuration := σ.sm.timeoutDuration },
           trace := σ.trace ++ [Event.start none] }) ∨
  (σ.sm.isActive = false ∧
    ∃ err, σ' = { sm := σ.sm, trace := σ.trace ++ [Event.start (some err)] })

/-- What any step can do: what a request can do, or stop an active session
that is past its deadline. -/
def StepShape (now : Time) (σ σ' : World) : Prop :=
  HandlerShape now σ σ' ∨
  (σ.sm.isActive = true ∧ Since now σ.sm.lastHeartbeat > σ.sm.timeoutDuration ∧
    ∃ env : Env, σ' = { sm := { σ.sm with isActive := false },
                        trace := σ.trace ++ stopEvents env })

/-- The invariant of the untimed system: the session events alternate from a
start; the flag says whether their number is odd and whether the latest one
is a start; and while active the trace splits at the start that opened the
session, with no start and no stop after it. -/
def SessionInv (σ : World) : Prop :=
  sessionKinds σ.trace = alternating (sessionKinds σ.trace).length ∧
  (σ.sm.isActive = true ↔ (sessionKinds σ.trace).length % 2 = 1) ∧
  σ.sm.isActive = sessionOpen σ.trace ∧
  σ.sm.timeoutDuration = 5 * Minute ∧
  (σ.sm.isActive = true → ∃ pre post, σ.trace = pre ++ Event.start none :: post ∧
    (sessionKinds pre).length % 2 = 0 ∧ ∀ e ∈ post, e.isStart = false ∧ e.isStop = false)

/-- The invariant of the timed system: the untimed one, the clock is between
the latest tick and one monitor interval after it, and while active the
latest tick was not after the deadline `lastHeartbeat + timeoutDuration`. -/
def TimedInv (s : Timed) : Prop :=
  SessionInv s.world ∧ s.lastTick ≤ s.now ∧ s.now - s.lastTick ≤ monitorInterval ∧
  (s.world.sm.isActive = true →
    s.lastTick - s.world.sm.lastHeartbeat ≤ s.world.sm.timeoutDuration)

/-! ## Lemmas on the stop sequence -/

theorem issued_append (t new : List Event) : issued t (t ++ new) = new := by
  simp [issued]

theorem stopService_sm (env : Env) (σ : World) : (stopService env σ).2.sm = σ.sm := by
  unfold stopService
  cases env.stopErr with
  | some err => rfl
  | none =>
    by_cases hp : env.pgrepOut.length > 0
    · simp [hp]
    · simp [hp]

theorem stopService_trace (env : Env) (σ : World) :
    (stopService env σ).2.trace = σ.trace ++ stopEvents env := by
  obtain ⟨now, startErr, stopErr, pgrepOut, killErr⟩ := env
  cases stopErr with
  | some err => simp [stopService, stopEvents]
  | none =>
    cases pgrepOut with
    | nil => simp [stopService, stopEvents]
    | cons b bs => simp [stopService, stopEvents]

theorem stopEvents_filter_isStop (env : Env) :
    (stopEvents env).filter Event.isStop = [Event.stop env.stopErr] := by
  obtain ⟨now, startErr, stopErr, pgrepOut, killErr⟩ := env
  cases stopErr with
  | some err => simp [stopEvents, Event.isStop]
  | none =>
    cases pgrepOut with
    | nil => simp [stopEvents, Event.isStop]
    | cons b bs => simp [stopEvents, Event.isStop]

theorem stopEvents_filter_isStart (env : Env) :
    (stopEvents env).filter Event.isStart = [] := by
  obtain ⟨now, startErr, stopErr, pgrepOut, killErr⟩ := env
  cases stopErr with
  | some err => simp [stopEvents, Event.isStart]
  | none =>
    cases pgrepOut with
    | nil => simp [stopEvents, Event.isStart]
    | cons b bs => simp [stopEvents, Event.isStart]

/-! ## Service control: stop with force-kill escalation -/

/-- C6: `stopService` returns exactly the error of the supervisor stop
command (so an error iff that command failed, and ok whatever the kill
returned); it leaves the session fields alone; it issues the supervisor stop
first and once; the process check is issued iff the stop succeeded, and the
force-kill iff moreover the check printed something; the full sequence is
stop, or stop, settle wait of 2 s, check, and then the kill when the check's
output is non-empty. -/
theorem stopService_spec (env : Env) (σ : World) :
    (stopService env σ).1 = env.stopErr ∧
    (stopService env σ).2.sm = σ.sm ∧
    (stopService env σ).2.trace = σ.trace ++ issued σ.trace (stopService env σ).2.trace ∧
    (issued σ.trace (stopService env σ).2.trace).filter Event.isStop = [Event.stop env.stopErr] ∧
    ((∃ out, Event.pgrep out ∈ issued σ.trace (stopService env σ).2.trace) ↔
      env.stopErr = none) ∧
    ((∃ e, Event.pkill e ∈ issued σ.trace (stopService env σ).2.trace) ↔
      (env.stopErr = none ∧ env.pgrepOut ≠ [])) ∧
    issued σ.trace (stopService env σ).2.trace =
      (if env.stopErr.isSome then [Event.stop env.stopErr]
       else if env.pgrepOut = [] then
         [Event.stop none, Event.sleep (2 * Second), Event.pgrep env.pgrepOut]
       else
         [Event.stop none, Event.sleep (2 * Second), Event.pgrep env.pgrepOut,
          Event.pkill env.killErr]) := by
  obtain ⟨now, startErr, stopErr, pgrepOut, killErr⟩ := env
  cases stopErr with
  | some err => simp [stopService, issued, Event.isStop]
  | none =>
    cases pgrepOut with
    | nil => simp [stopService, issued, Event.isStop]
    | cons b bs => simp [stopService, issued, Event.isStop]

/-! ## Header lemmas -/

theorem Header.Get_Set_same (h : Header) (k v : String) :
    (h.Set k v).Get k = some v := by
  simp [Header.Get, Header.Set]

theorem Header.Get_Set_other (h : Header) (k k' v : String) (hne : k ≠ k') :
    (h.Set k v).Get k' = h.Get k' := by
  have h1 : (k == k') = false := by simpa using hne
  simp only [Header.Get, Header.Set, List.find?_cons, h1]
  congr 1
  induction h with
  | nil => rfl
  | cons p ps ih =>
    by_cases hp : p.1 = k
    · have hpk : (p.1 == k') = false := by simpa [hp] using hne
      simp [List.filter_cons, List.find?_cons, hp, hpk, ih, h1]
    · by_cases hk : p.1 = k'
      · have hp' : ¬ k' = k := fun e => hp (hk.trans e)
        simp [List.filter_cons, List.find?_cons, hk, hp']
      · simp [List.filter_cons, List.find?_cons, hp, hk, ih]

/-! ## The clock comparison of the monitor -/

theorem minDuration_neg : MinDuration < 0 := by decide

theorem since_gt_of (now t : Time) (d : Duration) (hhi : d < MaxDuration)
    (h : now - t > d) : Since now t > d := by
  unfold Since
  split_ifs with h1 h2
  · exact hhi
  · linarith
  · exact h

theorem since_le_of (now t : Time) (d : Duration) (hlo : MinDuration ≤ d)
    (h : now - t ≤ d) : Since now t ≤ d := by
  unfold Since
  split_ifs with h1 h2
  · linarith
  · exact hlo
  · exact h

theorem monitorTick_fire (env : Env) (σ : World) (hact : σ.sm.isActive = true)
    (hlate : Since env.now σ.sm.lastHeartbeat > σ.sm.timeoutDuration) :
    monitorTick env σ =
      { sm := { σ.sm with isActive := false }, trace := σ.trace ++ stopEvents env } := by
  have hif : (σ.sm.isActive && decide (Since env.now σ.sm.lastHeartbeat > σ.sm.timeoutDuration))
      = true := by
    simp [hact, hlate]
  have hm : monitorTick env σ =
      { (stopService env σ).2 with sm := { (stopService env σ).2.sm with isActive := false } } := by
    simp only [monitorTick, hif, if_true]
  rw [hm]
  simp only [stopService_sm, stopService_trace]

theorem monitorTick_skip (env : Env) (σ : World)
    (hno : ¬ (σ.sm.isActive = true ∧
      Since env.now σ.sm.lastHeartbeat > σ.sm.timeoutDuration)) :
    monitorTick env σ = σ := by
  have hif : (σ.sm.isActive && decide (Since env.now σ.sm.lastHeartbeat > σ.sm.timeoutDuration))
      = false := by
    simp only [Bool.and_eq_false_imp, decide_eq_false_iff_not]
    intro ha hgt
    exact hno ⟨ha, hgt⟩
  simp [monitorTick, hif]

/-! ## The monitor iteration -/

/-- C5, as amended: on a session whose `timeoutDuration` is a `Duration`
below the largest one, one monitor iteration never modifies `lastHeartbeat`
or `timeoutDuration`.  When the session is active and
`now - lastHeartbeat > timeoutDuration`, it runs `stopService` exactly once
(its trace is that of one run, which holds exactly one supervisor stop) and
ends inactive whatever `stopService` returned.  Otherwise, in particular
when idle or when `now - lastHeartbeat = timeoutDuration`, the session and
the trace are unchanged; so on an idle session any number of iterations of
the loop does nothing. -/
theorem monitorTick_spec (env : Env) (σ : World)
    (hlo : MinDuration ≤ σ.sm.timeoutDuration) (hhi : σ.sm.timeoutDuration < MaxDuration) :
    (monitorTick env σ).sm.lastHeartbeat = σ.sm.lastHeartbeat ∧
    (monitorTick env σ).sm.timeoutDuration = σ.sm.timeoutDuration ∧
    (σ.sm.isActive = true ∧ env.now - σ.sm.lastHeartbeat > σ.sm.timeoutDuration →
      (monitorTick env σ).sm.isActive = false ∧
      (monitorTick env σ).trace = (stopService env σ).2.trace ∧
      (monitorTick env σ).trace = σ.trace ++ issued σ.trace (monitorTick env σ).trace ∧
      (issued σ.trace (monitorTick env σ).trace).filter Event.isStop =
        [Event.stop env.stopErr]) ∧
    (¬ (σ.sm.isActive = true ∧ env.now - σ.sm.lastHeartbeat > σ.sm.timeoutDuration) →
      monitorTick env σ = σ) ∧
    (env.now - σ.sm.lastHeartbeat = σ.sm.timeoutDuration → monitorTick env σ = σ) ∧
    (σ.sm.isActive = false → ∀ ticks : List Env, monitor ticks σ = σ) := by
  have hidle : σ.sm.isActive = false → ∀ ticks : List Env, monitor ticks σ = σ := by
    intro hi ticks
    induction ticks with
    | nil => rfl
    | cons e es ih =>
      have he : monitorTick e σ = σ := by simp [monitorTick, hi]
      show List.foldl _ (monitorTick e σ) es = σ
      rw [he]
      exact ih
  by_cases hc : σ.sm.isActive = true ∧ env.now - σ.sm.lastHeartbeat > σ.sm.timeoutDuration
  · have hlate : Since env.now σ.sm.lastHeartbeat > σ.sm.timeoutDuration :=
      since_gt_of _ _ _ hhi hc.2
    have hgt : ¬ (env.now - σ.sm.lastHeartbeat = σ.sm.timeoutDuration) := by
      have h2 := hc.2
      intro he
      linarith
    rw [monitorTick_fire env σ hc.1 hlate, stopService_trace, issued_append,
      stopEvents_filter_isStop]
    exact ⟨rfl, rfl, fun _ => ⟨rfl, rfl, rfl, rfl⟩, fun hn => absurd hc hn,
      fun he => absurd he hgt, hidle⟩
  · have hno : ¬ (σ.sm.isActive = true ∧
        Since env.now σ.sm.lastHeartbeat > σ.sm.timeoutDuration) := by
      intro hs
      have hle : env.now - σ.sm.lastHeartbeat ≤ σ.sm.timeoutDuration :=
        not_lt.mp (fun hgt => hc ⟨hs.1, hgt⟩)
      exact absurd hs.2 (not_lt.mpr (since_le_of _ _ _ hlo hle))
    rw [monitorTick_skip env σ hno]
    exact ⟨rfl, rfl, fun h => absurd h hc, fun _ => rfl, fun _ => rfl, hidle⟩

/-- Witness of C5 as amended: the session last refreshed at 10 s with a
timeout of five minutes is stopped by the iteration at 310 s and one
nanosecond, although the supervisor stop fails. -/
theorem monitorTick_spec_witness :
    MinDuration ≤ activeWorld.sm.timeoutDuration ∧
    activeWorld.sm.timeoutDuration < MaxDuration ∧
    (activeWorld.sm.isActive = true ∧
      overdueEnv.now - activeWorld.sm.lastHeartbeat > activeWorld.sm.timeoutDuration) ∧
    (monitorTick overdueEnv activeWorld).sm.isActive = false ∧
    (issued activeWorld.trace (monitorTick overdueEnv activeWorld).trace).filter Event.isStop =
      [Event.stop overdueEnv.stopErr] :=
  ⟨by decide, by decide, ⟨rfl, by decide⟩,
    ((monitorTick_spec overdueEnv activeWorld (by decide) (by decide)).2.2.1
      ⟨rfl, by decide⟩).1,
    ((monitorTick_spec overdueEnv activeWorld (by decide) (by decide)).2.2.1
      ⟨rfl, by decide⟩).2.2.2⟩

/-- Counterexample to C5 as stated for every session state: with the largest
`Duration` as timeout, a session last refreshed at the zero instant is
active and more than its timeout behind the clock on 1 January 2000, yet the
monitor iteration leaves it as it is, active and with no stop issued,
because `time.Since` cannot exceed the largest `Duration`. -/
theorem monitorTick_saturated_timeout :
    saturatedWorld.sm.isActive = true ∧
    lateEnv.now - saturatedWorld.sm.lastHeartbeat > saturatedWorld.sm.timeoutDuration ∧
    monitorTick lateEnv saturatedWorld = saturatedWorld ∧
    (monitorTick lateEnv saturatedWorld).sm.isActive = true ∧
    issued saturatedWorld.trace (monitorTick lateEnv saturatedWorld).trace = [] := by
  have hskip : monitorTick lateEnv saturatedWorld = saturatedWorld := by
    apply monitorTick_skip
    intro hs
    exact absurd hs.2 (by decide)
  rw [hskip]
  exact ⟨rfl, by decide, rfl, rfl, by simp [issued]⟩

/-! ## Responses of the two library-level writers -/

theorem sendJSONResponse_unsent (h : Header) (resp : Response) :
    sendJSONResponse (unsent h) resp =
      { header := h.Set "Content-Type" "application/json",
        sent := some (200, h.Set "Content-Type" "application/json"),
        body := [Chunk.json resp] } := by
  simp [sendJSONResponse, unsent, ResponseWriter.Write, ResponseWriter.WriteHeader]

theorem httpError_unsent (h : Header) (msg : String) (code : Nat) :
    httpError (unsent h) msg code =
      { header := (h.Set "Content-Type" "text/plain; charset=utf-8").Set
          "X-Content-Type-Options" "nosniff",
        sent := some (code, (h.Set "Content-Type" "text/plain; charset=utf-8").Set
          "X-Content-Type-Options" "nosniff"),
        body := [Chunk.line msg] } := by
  simp [httpError, unsent, ResponseWriter.Write, ResponseWriter.WriteHeader]

theorem InitiateStream_active (env : Env) (w : ResponseWriter) (σ : World)
    (hact : σ.sm.isActive = true) :
    InitiateStream env w post σ =
      (sendJSONResponse w
        { Status := "success", Message := "Stream already active", URL := "/playlist.m3u8" },
       σ) := by
  simp [InitiateStream, post, MethodPost, hact]

theorem InitiateStream_idle_ok (env : Env) (w : ResponseWriter) (σ : World)
    (hidle : σ.sm.isActive = false) (hok : env.startErr = none) :
    InitiateStream env w post σ =
      (sendJSONResponse w
        { Status := "success", Message := "Stream initiated", URL := "/playlist.m3u8" },
       { sm := { isActive := true, lastHeartbeat := env.now,
                 timeoutDuration := σ.sm.timeoutDuration },
         trace := σ.trace ++ [Event.start none] }) := by
  simp [InitiateStream, post, MethodPost, hidle, startService, hok]

theorem InitiateStream_idle_err (env : Env) (w : ResponseWriter) (σ : World) (err : String)
    (hidle : σ.sm.isActive = false) (herr : env.startErr = some err) :
    InitiateStream env w post σ =
      (httpError w "Failed to start stream" StatusInternalServerError,
       { sm := σ.sm, trace := σ.trace ++ [Event.start (some err)] }) := by
  simp [InitiateStream, post, MethodPost, hidle, startService, herr]

theorem Heartbeat_active (env : Env) (w : ResponseWriter) (σ : World)
    (hact : σ.sm.isActive = true) :
    Heartbeat env w post σ =
      (sendJSONResponse w { Status := "success", Message := "Heartbeat received", URL := "" },
       { sm := { isActive := true, lastHeartbeat := env.now,
                 timeoutDuration := σ.sm.timeoutDuration },
         trace := σ.trace }) := by
  simp [Heartbeat, post, MethodPost, hact]

theorem Heartbeat_idle (env : Env) (w : ResponseWriter) (σ : World)
    (hidle : σ.sm.isActive = false) :
    Heartbeat env w post σ = (httpError w "No active stream" StatusNotFound, σ) := by
  simp [Heartbeat, post, MethodPost, hidle]

theorem handler_wrong_method (w : ResponseWriter) (r : Request)
    (hm : r.Method ≠ "POST") :
    (∀ env σ, InitiateStream env w r σ =
      (httpError w "Method not allowed" StatusMethodNotAllowed, σ)) ∧
    (∀ env σ, Heartbeat env w r σ =
      (httpError w "Method not allowed" StatusMethodNotAllowed, σ)) := by
  refine ⟨fun env σ => ?_, fun env σ => ?_⟩
  · simp [InitiateStream, MethodPost, hm]
  · simp [Heartbeat, MethodPost, hm]

/-! ## Initiate -/

/-- C1: a POST to `InitiateStream` on an active session leaves the session
and the trace exactly as they were (so no start command is issued and
`lastHeartbeat` is kept) and answers 200 with the JSON envelope status
"success", message "Stream already active", url "/playlist.m3u8"; hence
any finite sequence of such calls, whatever the clock and the outcome the
supervisor would have given, ends in the same session with the same trace. -/
theorem initiate_active_idempotent (env : Env) (h : Header) (σ : World)
    (hact : σ.sm.isActive = true) :
    (InitiateStream env (unsent h) post σ).2 = σ ∧
    (issued σ.trace (InitiateStream env (unsent h) post σ).2.trace).filter Event.isStart = [] ∧
    (InitiateStream env (unsent h) post σ).1.statusCode = 200 ∧
    (InitiateStream env (unsent h) post σ).1.sentHeader.Get "Content-Type" =
      some "application/json" ∧
    (InitiateStream env (unsent h) post σ).1.jsonBody =
      some [("status", "success"), ("message", "Stream already active"),
            ("url", "/playlist.m3u8")] ∧
    ∀ calls : List (Env × Header),
      calls.foldl (fun τ c => (InitiateStream c.1 (unsent c.2) post τ).2) σ = σ := by
  rw [InitiateStream_active env _ σ hact, sendJSONResponse_unsent]
  refine ⟨rfl, ?_, rfl, ?_, ?_, ?_⟩
  · simp [issued]
  · exact Header.Get_Set_same _ _ _
  · simp [ResponseWriter.jsonBody, Response.jsonFields]
  · intro calls
    induction calls with
    | nil => rfl
    | cons c cs ih =>
      rw [List.foldl_cons, InitiateStream_active c.1 _ σ hact]
      exact ih

/-- Witness of C1 on a session started at 10 s. -/
theorem initiate_active_idempotent_witness :
    activeWorld.sm.isActive = true ∧
    (InitiateStream failingEnv (unsent []) post activeWorld).2 = activeWorld ∧
    (InitiateStream failingEnv (unsent []) post activeWorld).1.statusCode = 200 :=
  ⟨rfl, (initiate_active_idempotent failingEnv [] activeWorld rfl).1,
    (initiate_active_idempotent failingEnv [] activeWorld rfl).2.2.1⟩

/-- C2: a POST to `InitiateStream` on an idle session whose start command
succeeds appends exactly one event, the successful start, to the trace, ends
with `isActive = true` and `lastHeartbeat = now` together and
`timeoutDuration` as before, and answers 200 with the JSON envelope status
"success", message "Stream initiated", url "/playlist.m3u8". -/
theorem initiate_idle_success (env : Env) (h : Header) (σ : World)
    (hidle : σ.sm.isActive = false) (hok : env.startErr = none) :
    (InitiateStream env (unsent h) post σ).2.trace = σ.trace ++ [Event.start none] ∧
    (InitiateStream env (unsent h) post σ).2.sm.isActive = true ∧
    (InitiateStream env (unsent h) post σ).2.sm.lastHeartbeat = env.now ∧
    (InitiateStream env (unsent h) post σ).2.sm.timeoutDuration = σ.sm.timeoutDuration ∧
    (InitiateStream env (unsent h) post σ).1.statusCode = 200 ∧
    (InitiateStream env (unsent h) post σ).1.sentHeader.Get "Content-Type" =
      some "application/json" ∧
    (InitiateStream env (unsent h) post σ).1.jsonBody =
      some [("status", "success"), ("message", "Stream initiated"),
            ("url", "/playlist.m3u8")] := by
  rw [InitiateStream_idle_ok env _ σ hidle hok, sendJSONResponse_unsent]
  refine ⟨rfl, rfl, rfl, rfl, rfl, ?_, ?_⟩
  · exact Header.Get_Set_same _ _ _
  · simp [ResponseWriter.jsonBody, Response.jsonFields]

/-- Witness of C2 from the start-up session. -/
theorem initiate_idle_success_witness :
    idleWorld.sm.isActive = false ∧ calmEnv.startErr = none ∧
    (InitiateStream calmEnv (unsent []) post idleWorld).2.trace = [Event.start none] ∧
    (InitiateStream calmEnv (unsent []) post idleWorld).2.sm.isActive = true ∧
    (InitiateStream calmEnv (unsent []) post idleWorld).2.sm.lastHeartbeat = 400 * Second :=
  ⟨rfl, rfl, (initiate_idle_success calmEnv [] idleWorld rfl rfl).1,
    (initiate_idle_success calmEnv [] idleWorld rfl rfl).2.1,
    (initiate_idle_success calmEnv [] idleWorld rfl rfl).2.2.1⟩

/-- C3: a POST to `InitiateStream` on an idle session whose start command
fails answers 500 with the plain-text body "Failed to start stream"; the
session fields are exactly what they were and the trace gained the one failed
start; any later POST to `InitiateStream` runs the start command again. -/
theorem initiate_idle_failure (env : Env) (h : Header) (σ : World)
    (hidle : σ.sm.isActive = false) (hfail : env.startErr ≠ none) :
    (InitiateStream env (unsent h) post σ).1.statusCode = 500 ∧
    (InitiateStream env (unsent h) post σ).1.textBody = some "Failed to start stream" ∧
    (InitiateStream env (unsent h) post σ).1.sentHeader.Get "Content-Type" =
      some "text/plain; charset=utf-8" ∧
    (InitiateStream env (unsent h) post σ).2.sm = σ.sm ∧
    (InitiateStream env (unsent h) post σ).2.trace = σ.trace ++ [Event.start env.startErr] ∧
    ∀ (env2 : Env) (h2 : Header),
      (InitiateStream env2 (unsent h2) post (InitiateStream env (unsent h) post σ).2).2.trace =
        (InitiateStream env (unsent h) post σ).2.trace ++ [Event.start env2.startErr] := by
  obtain ⟨err, herr⟩ := Option.ne_none_iff_exists'.mp hfail
  rw [InitiateStream_idle_err env _ σ err hidle herr, httpError_unsent, herr]
  refine ⟨rfl, rfl, ?_, rfl, rfl, ?_⟩
  · show Header.Get (Header.Set (Header.Set h "Content-Type" "text/plain; charset=utf-8")
      "X-Content-Type-Options" "nosniff") "Content-Type" = _
    rw [Header.Get_Set_other _ "X-Content-Type-Options" "Content-Type" _ (by decide),
      Header.Get_Set_same]
  · intro env2 h2
    have hidle2 : (World.mk σ.sm (σ.trace ++ [Event.start (some err)])).sm.isActive = false :=
      hidle
    cases h2e : env2.startErr with
    | none => rw [InitiateStream_idle_ok env2 _ _ hidle2 h2e]
    | some e2 => rw [InitiateStream_idle_err env2 _ _ e2 hidle2 h2e]

/-- Witness of C3 from the start-up session. -/
theorem initiate_idle_failure_witness :
    idleWorld.sm.isActive = false ∧ failingEnv.startErr ≠ none ∧
    (InitiateStream failingEnv (unsent []) post idleWorld).1.statusCode = 500 ∧
    (InitiateStream failingEnv (unsent []) post idleWorld).2.sm = idleWorld.sm :=
  ⟨rfl, by decide, (initiate_idle_failure failingEnv [] idleWorld rfl (by decide)).1,
    (initiate_idle_failure failingEnv [] idleWorld rfl (by decide)).2.2.2.1⟩

/-! ## Heartbeat -/

/-- C4: a POST to `Heartbeat` answers 200 exactly when the session is active
and 404 exactly when it is idle.  When active the body is the JSON envelope
status "success", message "Heartbeat received" with no url member, and the
only change is `lastHeartbeat = now`; when idle the body is the plain text
"No active stream" and nothing changes.  In both cases `isActive` and
`timeoutDuration` keep their values and the trace is untouched: no command
of any kind is issued. -/
theorem heartbeat_spec (env : Env) (h : Header) (σ : World) :
    ((Heartbeat env (unsent h) post σ).1.statusCode = 200 ↔ σ.sm.isActive = true) ∧
    ((Heartbeat env (unsent h) post σ).1.statusCode = 404 ↔ σ.sm.isActive = false) ∧
    (σ.sm.isActive = true →
      (Heartbeat env (unsent h) post σ).1.jsonBody =
        some [("status", "success"), ("message", "Heartbeat received")] ∧
      (Heartbeat env (unsent h) post σ).1.sentHeader.Get "Content-Type" =
        some "application/json" ∧
      (Heartbeat env (unsent h) post σ).2.sm.lastHeartbeat = env.now) ∧
    (σ.sm.isActive = false →
      (Heartbeat env (unsent h) post σ).1.textBody = some "No active stream" ∧
      (Heartbeat env (unsent h) post σ).2 = σ) ∧
    (Heartbeat env (unsent h) post σ).2.sm.isActive = σ.sm.isActive ∧
    (Heartbeat env (unsent h) post σ).2.sm.timeoutDuration = σ.sm.timeoutDuration ∧
    (Heartbeat env (unsent h) post σ).2.trace = σ.trace := by
  cases hact : σ.sm.isActive with
  | true =>
    rw [Heartbeat_active env _ σ hact, sendJSONResponse_unsent]
    refine ⟨⟨fun _ => rfl, fun _ => rfl⟩, ⟨fun hc => ?_, fun hc => (by cases hc)⟩,
      fun _ => ⟨?_, ?_, rfl⟩, fun hc => (by cases hc), rfl, rfl, rfl⟩
    · simp [ResponseWriter.statusCode] at hc
    · simp [ResponseWriter.jsonBody, Response.jsonFields]
    · exact Header.Get_Set_same _ _ _
  | false =>
    rw [Heartbeat_idle env _ σ hact, httpError_unsent]
    refine ⟨⟨fun hc => ?_, fun hc => (by cases hc)⟩, ⟨fun _ => rfl, fun _ => rfl⟩,
      fun hc => (by cases hc), fun _ => ⟨rfl, rfl⟩, hact, rfl, rfl⟩
    simp [ResponseWriter.statusCode, StatusNotFound] at hc

/-! ## Heartbeat against the monitor -/

/-- C9: on an active session, however old its `lastHeartbeat`, a POST to
`Heartbeat` at `t1` followed by a monitor iteration at `t2` with `t1 ≤ t2`
and `t2 - t1 ≤ timeoutDuration` issues no command at all (in particular no
stop) and leaves the session active with `lastHeartbeat = t1`. -/
theorem heartbeat_prevents_shutdown (env1 env2 : Env) (h : Header) (σ : World)
    (hact : σ.sm.isActive = true) (hle : env1.now ≤ env2.now)
    (hgap : env2.now - env1.now ≤ σ.sm.timeoutDuration) :
    (monitorTick env2 (Heartbeat env1 (unsent h) post σ).2).trace = σ.trace ∧
    (monitorTick env2 (Heartbeat env1 (unsent h) post σ).2).sm.isActive = true ∧
    (monitorTick env2 (Heartbeat env1 (unsent h) post σ).2).sm.lastHeartbeat = env1.now ∧
    (monitorTick env2 (Heartbeat env1 (unsent h) post σ).2).sm.timeoutDuration =
      σ.sm.timeoutDuration := by
  rw [Heartbeat_active env1 _ σ hact]
  have hif : decide (Since env2.now env1.now > σ.sm.timeoutDuration) = false := by
    simp only [decide_eq_false_iff_not, not_lt]
    have hneg := minDuration_neg
    unfold Since
    split_ifs with h1 h2
    · linarith
    · linarith
    · exact hgap
  simp [monitorTick, hif]

/-- Witness of C9: the session was last refreshed at 10 s, so at 400 s it is
already past its deadline of 310 s; the heartbeat lands at 400 s and the
monitor looks at 700 s, exactly one timeout later. -/
theorem heartbeat_prevents_shutdown_witness :
    activeWorld.sm.isActive = true ∧ calmEnv.now ≤ ({ calmEnv with now := 700 * Second } : Env).now ∧
    ({ calmEnv with now := 700 * Second } : Env).now - calmEnv.now ≤
      activeWorld.sm.timeoutDuration ∧
    calmEnv.now - activeWorld.sm.lastHeartbeat > activeWorld.sm.timeoutDuration ∧
    (monitorTick { calmEnv with now := 700 * Second }
      (Heartbeat calmEnv (unsent []) post activeWorld).2).trace = activeWorld.trace ∧
    (monitorTick { calmEnv with now := 700 * Second }
      (Heartbeat calmEnv (unsent []) post activeWorld).2).sm.isActive = true ∧
    (monitorTick { calmEnv with now := 700 * Second }
      (Heartbeat calmEnv (unsent []) post activeWorld).2).sm.lastHeartbeat = 400 * Second :=
  ⟨rfl, by decide, by decide, by decide,
    (heartbeat_prevents_shutdown calmEnv { calmEnv with now := 700 * Second } [] activeWorld
      rfl (by decide) (by decide)).1,
    (heartbeat_prevents_shutdown calmEnv { calmEnv with now := 700 * Second } [] activeWorld
      rfl (by decide) (by decide)).2.1,
    (heartbeat_prevents_shutdown calmEnv { calmEnv with now := 700 * Second } [] activeWorld
      rfl (by decide) (by decide)).2.2.1⟩

/-! ## The HTTP surface -/

theorem InitiateStream_writesOnce : WritesOnce InitiateStream := by
  intro env w r σ
  unfold InitiateStream
  by_cases hm : r.Method ≠ MethodPost
  · exact Or.inr ⟨_, _, by rw [if_pos hm]⟩
  · rw [if_neg hm]
    cases hact : σ.sm.isActive with
    | true => exact Or.inl ⟨_, by simp; rfl⟩
    | false =>
      cases herr : env.startErr with
      | none => exact Or.inl ⟨_, by simp [startService, herr]; rfl⟩
      | some e => exact Or.inr ⟨_, _, by simp [startService, herr]; rfl⟩

theorem Heartbeat_writesOnce : WritesOnce Heartbeat := by
  intro env w r σ
  unfold Heartbeat
  by_cases hm : r.Method ≠ MethodPost
  · exact Or.inr ⟨_, _, by rw [if_pos hm]⟩
  · rw [if_neg hm]
    cases hact : σ.sm.isActive with
    | true => exact Or.inl ⟨_, by simp; rfl⟩
    | false => exact Or.inr ⟨_, _, by simp; rfl⟩

theorem enableCors_options (next : HandlerFunc) (env : Env) (r : Request) (σ : World)
    (hm : r.Method = "OPTIONS") :
    enableCors next env ResponseWriter.fresh r σ =
      ({ header := corsHeader, sent := some (200, corsHeader), body := [] }, σ) := by
  simp [enableCors, hm, ResponseWriter.fresh, ResponseWriter.WriteHeader, corsHeader, StatusOK]

theorem enableCors_other (next : HandlerFunc) (env : Env) (r : Request) (σ : World)
    (hm : r.Method ≠ "OPTIONS") :
    enableCors next env ResponseWriter.fresh r σ = next env (unsent corsHeader) r σ := by
  simp [enableCors, hm, ResponseWriter.fresh, corsHeader, unsent]

theorem corsHeader_get :
    corsHeader.Get "Access-Control-Allow-Origin" = some "*" ∧
    corsHeader.Get "Access-Control-Allow-Methods" = some "POST, GET, OPTIONS" ∧
    corsHeader.Get "Access-Control-Allow-Headers" = some "Accept, Content-Type" := by
  refine ⟨?_, ?_, ?_⟩
  · unfold corsHeader
    rw [Header.Get_Set_other _ _ _ _ (by decide), Header.Get_Set_other _ _ _ _ (by decide),
      Header.Get_Set_same]
  · unfold corsHeader
    rw [Header.Get_Set_other _ _ _ _ (by decide), Header.Get_Set_same]
  · unfold corsHeader
    rw [Header.Get_Set_same]

theorem sent_keeps_header (h : Header) (w : ResponseWriter) (k : String)
    (hk1 : "Content-Type" ≠ k) (hk2 : "X-Content-Type-Options" ≠ k)
    (hw : (∃ resp, w = sendJSONResponse (unsent h) resp) ∨
      (∃ msg code, w = httpError (unsent h) msg code)) :
    w.sentHeader.Get k = h.Get k := by
  rcases hw with ⟨resp, rfl⟩ | ⟨msg, code, rfl⟩
  · rw [sendJSONResponse_unsent]
    exact Header.Get_Set_other _ _ _ _ hk1
  · rw [httpError_unsent]
    show Header.Get (Header.Set (Header.Set h _ _) _ _) k = _
    rw [Header.Get_Set_other _ _ _ _ hk2, Header.Get_Set_other _ _ _ _ hk1]

theorem enableCors_headers (next : HandlerFunc) (hn : WritesOnce next) (env : Env)
    (r : Request) (σ : World) (k : String)
    (hk1 : "Content-Type" ≠ k) (hk2 : "X-Content-Type-Options" ≠ k) :
    (enableCors next env ResponseWriter.fresh r σ).1.sentHeader.Get k = corsHeader.Get k := by
  by_cases hm : r.Method = "OPTIONS"
  · rw [enableCors_options next env r σ hm]
    rfl
  · rw [enableCors_other next env r σ hm]
    exact sent_keeps_header corsHeader _ k hk1 hk2 (hn env (unsent corsHeader) r σ)

/-- C10: for every session, every outside world and every request, the
response of each of the two registered endpoints carries the three CORS
headers (whichever path the handler takes).  On `OPTIONS` the answer is 200
with an empty body, the session and the trace are unchanged, and the outcome
does not depend on the wrapped handler, which is not called.  On any other
method than `POST` the answer is 405 with the plain-text body
"Method not allowed", and the session and the trace are unchanged. -/
theorem cors_surface (env : Env) (r : Request) (σ : World) :
    (∀ ep : HandlerFunc, ep = initiateEndpoint ∨ ep = heartbeatEndpoint →
      (ep env ResponseWriter.fresh r σ).1.sentHeader.Get "Access-Control-Allow-Origin" =
        some "*" ∧
      (ep env ResponseWriter.fresh r σ).1.sentHeader.Get "Access-Control-Allow-Methods" =
        some "POST, GET, OPTIONS" ∧
      (ep env ResponseWriter.fresh r σ).1.sentHeader.Get "Access-Control-Allow-Headers" =
        some "Accept, Content-Type" ∧
      (r.Method = "OPTIONS" →
        (ep env ResponseWriter.fresh r σ).1.statusCode = 200 ∧
        (ep env ResponseWriter.fresh r σ).1.body = [] ∧
        (ep env ResponseWriter.fresh r σ).2 = σ) ∧
      (r.Method ≠ "OPTIONS" → r.Method ≠ "POST" →
        (ep env ResponseWriter.fresh r σ).1.statusCode = 405 ∧
        (ep env ResponseWriter.fresh r σ).1.textBody = some "Method not allowed" ∧
        (ep env ResponseWriter.fresh r σ).2 = σ)) ∧
    (r.Method = "OPTIONS" → ∀ next next' : HandlerFunc,
      enableCors next env ResponseWriter.fresh r σ =
        enableCors next' env ResponseWriter.fresh r σ) := by
  obtain ⟨ho, hme, hh⟩ := corsHeader_get
  refine ⟨?_, fun hm next next' => ?_⟩
  · intro ep hep
    have key : ∃ next, ep = enableCors next ∧ WritesOnce next ∧
        ∀ w, r.Method ≠ "POST" → next env w r σ =
          (httpError w "Method not allowed" StatusMethodNotAllowed, σ) := by
      rcases hep with rfl | rfl
      · exact ⟨InitiateStream, rfl, InitiateStream_writesOnce,
          fun w hp => (handler_wrong_method w r hp).1 env σ⟩
      · exact ⟨Heartbeat, rfl, Heartbeat_writesOnce,
          fun w hp => (handler_wrong_method w r hp).2 env σ⟩
    obtain ⟨next, rfl, hn, h405⟩ := key
    refine ⟨?_, ?_, ?_, fun hm => ?_, fun hm hp => ?_⟩
    · rw [enableCors_headers next hn env r σ _ (by decide) (by decide), ho]
    · rw [enableCors_headers next hn env r σ _ (by decide) (by decide), hme]
    · rw [enableCors_headers next hn env r σ _ (by decide) (by decide), hh]
    · rw [enableCors_options next env r σ hm]
      exact ⟨rfl, rfl, rfl⟩
    · rw [enableCors_other next env r σ hm, h405 _ hp, httpError_unsent]
      exact ⟨rfl, rfl, rfl⟩
  · rw [enableCors_options next env r σ hm, enableCors_options next' env r σ hm]

/-! ## Steps, case by case -/

theorem request_eq_post (r : Request) (hm : r.Method = "POST") : r = post := by
  cases r
  simp_all [post]

theorem initiateEndpoint_shape (env : Env) (r : Request) (σ : World) :
    HandlerShape env.now σ (initiateEndpoint env ResponseWriter.fresh r σ).2 := by
  unfold initiateEndpoint
  by_cases hm : r.Method = "OPTIONS"
  · rw [enableCors_options _ env r σ hm]
    exact Or.inl rfl
  · rw [enableCors_other _ env r σ hm]
    by_cases hp : r.Method = "POST"
    · rw [request_eq_post r hp]
      cases hact : σ.sm.isActive with
      | true =>
        rw [InitiateStream_active env _ σ hact]
        exact Or.inl rfl
      | false =>
        cases herr : env.startErr with
        | none =>
          rw [InitiateStream_idle_ok env _ σ hact herr]
          exact Or.inr (Or.inr (Or.inl ⟨hact, rfl⟩))
        | some err =>
          rw [InitiateStream_idle_err env _ σ err hact herr]
          exact Or.inr (Or.inr (Or.inr ⟨hact, err, rfl⟩))
    · rw [(handler_wrong_method _ r hp).1 env σ]
      exact Or.inl rfl

theorem heartbeatEndpoint_shape (env : Env) (r : Request) (σ : World) :
    HandlerShape env.now σ (heartbeatEndpoint env ResponseWriter.fresh r σ).2 := by
  unfold heartbeatEndpoint
  by_cases hm : r.Method = "OPTIONS"
  · rw [enableCors_options _ env r σ hm]
    exact Or.inl rfl
  · rw [enableCors_other _ env r σ hm]
    by_cases hp : r.Method = "POST"
    · rw [request_eq_post r hp]
      cases hact : σ.sm.isActive with
      | true =>
        rw [Heartbeat_active env _ σ hact]
        exact Or.inr (Or.inl ⟨hact, rfl⟩)
      | false =>
        rw [Heartbeat_idle env _ σ hact]
        exact Or.inl rfl
    · rw [(handler_wrong_method _ r hp).2 env σ]
      exact Or.inl rfl

theorem monitorTick_shape (env : Env) (σ : World) :
    StepShape env.now σ (monitorTick env σ) := by
  by_cases hc : σ.sm.isActive = true ∧
      Since env.now σ.sm.lastHeartbeat > σ.sm.timeoutDuration
  · rw [monitorTick_fire env σ hc.1 hc.2]
    exact Or.inr ⟨hc.1, hc.2, env, rfl⟩
  · rw [monitorTick_skip env σ hc]
    exact Or.inl (Or.inl rfl)

theorem step_shape {σ σ' : World} (h : Step σ σ') : ∃ now, StepShape now σ σ' := by
  cases h with
  | initiate env r => exact ⟨env.now, Or.inl (initiateEndpoint_shape env r σ)⟩
  | heartbeat env r => exact ⟨env.now, Or.inl (heartbeatEndpoint_shape env r σ)⟩
  | tick env => exact ⟨env.now, monitorTick_shape env σ⟩

/-! ## The alternation invariant -/

theorem sessionKinds_append (t u : List Event) :
    sessionKinds (t ++ u) = sessionKinds t ++ sessionKinds u := by
  simp [sessionKinds, List.filterMap_append]

theorem alternating_succ (n : Nat) :
    alternating (n + 1) = alternating n ++ [decide (n % 2 = 0)] := by
  simp [alternating, List.range_succ]

theorem sessionKinds_stopEvents (env : Env) : sessionKinds (stopEvents env) = [false] := by
  obtain ⟨now, startErr, stopErr, pgrepOut, killErr⟩ := env
  cases stopErr with
  | some err => simp [stopEvents, sessionKinds, Event.sessionKind]
  | none =>
    cases pgrepOut with
    | nil => simp [stopEvents, sessionKinds, Event.sessionKind]
    | cons b bs => simp [stopEvents, sessionKinds, Event.sessionKind]

theorem sessionOpen_append (t u : List Event) :
    sessionOpen (t ++ u) = u.foldl (fun o e => match e.sessionKind with
      | some b => b
      | none => o) (sessionOpen t) := by
  simp [sessionOpen, List.foldl_append]

theorem sessionOpen_stopEvents (t : List Event) (env : Env) :
    sessionOpen (t ++ stopEvents env) = false := by
  rw [sessionOpen_append]
  obtain ⟨now, startErr, stopErr, pgrepOut, killErr⟩ := env
  cases stopErr with
  | some err => simp [stopEvents, Event.sessionKind]
  | none =>
    cases pgrepOut with
    | nil => simp [stopEvents, Event.sessionKind]
    | cons b bs => simp [stopEvents, Event.sessionKind]

theorem foldl_stays_open (post : List Event) (hpost : ∀ e ∈ post, e.isStop = false) :
    post.foldl (fun o e => match e.sessionKind with
      | some b => b
      | none => o) true = true := by
  induction post with
  | nil => rfl
  | cons e es ih =>
    have he : e.isStop = false := hpost e (List.mem_cons_self _ _)
    have hes : ∀ x ∈ es, x.isStop = false := fun x hx => hpost x (List.mem_cons_of_mem _ hx)
    have hk : (match e.sessionKind with
      | some b => b
      | none => true) = true := by
      cases e with
      | start err => cases err <;> simp [Event.sessionKind]
      | stop err => simp [Event.isStop] at he
      | sleep d => simp [Event.sessionKind]
      | pgrep out => simp [Event.sessionKind]
      | pkill err => simp [Event.sessionKind]
    rw [List.foldl_cons, hk]
    exact ih hes

theorem sessionOpen_of_split (pre post : List Event) (hpost : ∀ e ∈ post, e.isStop = false) :
    sessionOpen (pre ++ Event.start none :: post) = true := by
  rw [sessionOpen_append, List.foldl_cons]
  exact foldl_stays_open post hpost

theorem sessionInv_init : SessionInv { sm := NewStreamManager, trace := [] } := by
  refine ⟨rfl, ?_, rfl, rfl, ?_⟩
  · simp [NewStreamManager, sessionKinds]
  · intro h
    simp [NewStreamManager] at h

theorem sessionInv_shape {now : Time} {σ σ' : World} (hi : SessionInv σ)
    (hs : StepShape now σ σ') : SessionInv σ' := by
  obtain ⟨h1, h2, h3, h4, h5⟩ := hi
  rcases hs with (rfl | ⟨hact, rfl⟩ | ⟨hidle, rfl⟩ | ⟨hidle, err, rfl⟩) | ⟨hact, -, env, rfl⟩
  · exact ⟨h1, h2, h3, h4, h5⟩
  · refine ⟨h1, ?_, ?_, h4, fun _ => h5 hact⟩
    · exact ⟨fun _ => h2.mp hact, fun _ => rfl⟩
    · show true = sessionOpen σ.trace
      rw [← h3, hact]
  · have hev : (sessionKinds σ.trace).length % 2 = 0 := by
      have hn : ¬ (sessionKinds σ.trace).length % 2 = 1 := fun h => by
        have := h2.mpr h
        rw [hidle] at this
        cases this
      omega
    have hk : sessionKinds (σ.trace ++ [Event.start none]) = sessionKinds σ.trace ++ [true] := by
      rw [sessionKinds_append]
      rfl
    refine ⟨?_, ?_, ?_, h4, fun _ => ⟨σ.trace, [], rfl, hev, by simp⟩⟩
    · show sessionKinds (σ.trace ++ [Event.start none]) = _
      rw [hk, List.length_append, List.length_singleton, alternating_succ, ← h1]
      simp [hev]
    · show true = true ↔ (sessionKinds (σ.trace ++ [Event.start none])).length % 2 = 1
      rw [hk, List.length_append, List.length_singleton]
      exact ⟨fun _ => by omega, fun _ => rfl⟩
    · show true = sessionOpen (σ.trace ++ [Event.start none])
      rw [sessionOpen_append]
      rfl
  · have hk : sessionKinds (σ.trace ++ [Event.start (some err)]) = sessionKinds σ.trace := by
      rw [sessionKinds_append]
      simp [sessionKinds, Event.sessionKind]
    refine ⟨?_, ?_, ?_, h4, fun h => ?_⟩
    · show sessionKinds (σ.trace ++ [Event.start (some err)]) = _
      rw [hk]
      exact h1
    · show σ.sm.isActive = true ↔ (sessionKinds (σ.trace ++ [Event.start (some err)])).length % 2 = 1
      rw [hk]
      exact h2
    · show σ.sm.isActive = sessionOpen (σ.trace ++ [Event.start (some err)])
      rw [sessionOpen_append, ← h3]
      rfl
    · have h' : σ.sm.isActive = true := h
      rw [hidle] at h'
      cases h'
  · have hodd : (sessionKinds σ.trace).length % 2 = 1 := h2.mp hact
    have hk : sessionKinds (σ.trace ++ stopEvents env) = sessionKinds σ.trace ++ [false] := by
      rw [sessionKinds_append, sessionKinds_stopEvents]
    refine ⟨?_, ?_, ?_, h4, fun h => ?_⟩
    · show sessionKinds (σ.trace ++ stopEvents env) = _
      rw [hk, List.length_append, List.length_singleton, alternating_succ, ← h1]
      have : ¬ (sessionKinds σ.trace).length % 2 = 0 := by omega
      simp [this]
    · show false = true ↔ (sessionKinds (σ.trace ++ stopEvents env)).length % 2 = 1
      rw [hk, List.length_append, List.length_singleton]
      exact ⟨fun h => (by cases h), fun h => (by omega)⟩
    · show false = sessionOpen (σ.trace ++ stopEvents env)
      rw [sessionOpen_stopEvents]
    · cases h

theorem reachable_inv {σ : World} (hr : Reachable σ) : SessionInv σ := by
  induction hr with
  | init => exact sessionInv_init
  | step _ hs ih =>
    obtain ⟨now, hshape⟩ := step_shape hs
    exact sessionInv_shape ih hshape

theorem issued_self (t : List Event) : issued t t = [] := by
  simp [issued]

theorem stepShape_commands {now : Time} {σ σ' : World} (hs : StepShape now σ σ') :
    σ'.trace = σ.trace ++ issued σ.trace σ'.trace ∧
    (∀ e ∈ issued σ.trace σ'.trace, e.isStart = true → σ.sm.isActive = false) ∧
    (∀ e ∈ issued σ.trace σ'.trace, e.isStop = true → σ.sm.isActive = true) := by
  rcases hs with (rfl | ⟨hact, rfl⟩ | ⟨hidle, rfl⟩ | ⟨hidle, err, rfl⟩) | ⟨hact, -, env, rfl⟩
  · rw [issued_self]
    simp
  · show σ.trace = σ.trace ++ issued σ.trace σ.trace ∧ _
    rw [issued_self]
    simp
  · show σ.trace ++ [Event.start none] = σ.trace ++ issued σ.trace (σ.trace ++ _) ∧ _
    rw [issued_append]
    simp [hidle, Event.isStop]
  · show σ.trace ++ [Event.start (some err)] = σ.trace ++ issued σ.trace (σ.trace ++ _) ∧ _
    rw [issued_append]
    simp [hidle, Event.isStop]
  · show σ.trace ++ stopEvents env = σ.trace ++ issued σ.trace (σ.trace ++ _) ∧ _
    rw [issued_append]
    refine ⟨rfl, fun e he hst => ?_, fun _ _ _ => hact⟩
    have hmem : e ∈ (stopEvents env).filter Event.isStart := List.mem_filter.mpr ⟨he, hst⟩
    rw [stopEvents_filter_isStart] at hmem
    cases hmem

/-! ## Start/stop alternation -/

/-- C7: in every state reachable from the start-up session by requests to the
two endpoints and monitor iterations, under any outcomes of the commands:
every further step extends the trace, issues a start command only if the
session is idle and a stop command only if it is active; the successful
starts and the stop attempts of the trace alternate, beginning with a start;
the session is active iff the trace holds a successful start with no stop
attempt after it; and while active the trace splits at the successful start
that opened the session (an even number of session events before it), after
which there is neither a start nor a stop, so that start is the only one
since the session became active. -/
theorem start_stop_alternation (σ : World) (hr : Reachable σ) :
    (∀ σ', Step σ σ' →
      σ'.trace = σ.trace ++ issued σ.trace σ'.trace ∧
      (∀ e ∈ issued σ.trace σ'.trace, e.isStart = true → σ.sm.isActive = false) ∧
      (∀ e ∈ issued σ.trace σ'.trace, e.isStop = true → σ.sm.isActive = true)) ∧
    sessionKinds σ.trace = alternating (sessionKinds σ.trace).length ∧
    (σ.sm.isActive = true ↔
      ∃ pre post, σ.trace = pre ++ Event.start none :: post ∧
        ∀ e ∈ post, e.isStop = false) ∧
    (σ.sm.isActive = true →
      ∃ pre post, σ.trace = pre ++ Event.start none :: post ∧
        (sessionKinds pre).length % 2 = 0 ∧
        (Event.start none :: post).filter Event.isStart = [Event.start none] ∧
        post.filter Event.isStop = []) := by
  obtain ⟨h1, -, h3, -, h5⟩ := reachable_inv hr
  refine ⟨fun σ' hs => ?_, h1, ⟨fun hact => ?_, fun hsplit => ?_⟩, fun hact => ?_⟩
  · obtain ⟨now, hshape⟩ := step_shape hs
    exact stepShape_commands hshape
  · obtain ⟨pre, post, ht, -, hpost⟩ := h5 hact
    exact ⟨pre, post, ht, fun e he => (hpost e he).2⟩
  · obtain ⟨pre, post, ht, hpost⟩ := hsplit
    rw [h3, ht]
    exact sessionOpen_of_split pre post hpost
  · obtain ⟨pre, post, ht, hev, hpost⟩ := h5 hact
    refine ⟨pre, post, ht, hev, ?_, ?_⟩
    · rw [List.filter_cons_of_pos (by rfl)]
      congr 1
      exact List.filter_eq_nil_iff.mpr (fun e he => by simp [(hpost e he).1])
    · exact List.filter_eq_nil_iff.mpr (fun e he => by simp [(hpost e he).2])

/-- Witness of C7 on the state reached by one successful initiate. -/
theorem start_stop_alternation_witness :
    Reachable startedWorld ∧
    sessionKinds startedWorld.trace = alternating (sessionKinds startedWorld.trace).length ∧
    (startedWorld.sm.isActive = true ↔
      ∃ pre post, startedWorld.trace = pre ++ Event.start none :: post ∧
        ∀ e ∈ post, e.isStop = false) :=
  ⟨Reachable.step Reachable.init (Step.initiate calmEnv post idleWorld),
    (start_stop_alternation startedWorld
      (Reachable.step Reachable.init (Step.initiate calmEnv post idleWorld))).2.1,
    (start_stop_alternation startedWorld
      (Reachable.step Reachable.init (Step.initiate calmEnv post idleWorld))).2.2.1⟩

/-! ## The timed system -/

theorem timeout_nonneg : (0 : Int) ≤ 5 * Minute := by decide

theorem interval_nonneg : (0 : Int) ≤ monitorInterval := by decide

theorem timedInv_handler {s : Timed} {σ' : World} (hi : TimedInv s)
    (hs : HandlerShape s.now s.world σ') : TimedInv { s with world := σ' } := by
  obtain ⟨hinv, hle, hint, hdead⟩ := hi
  have hinv' : SessionInv σ' := sessionInv_shape hinv (Or.inl hs)
  have hto : s.world.sm.timeoutDuration = 5 * Minute := hinv.2.2.2.1
  have hpos := timeout_nonneg
  refine ⟨hinv', hle, hint, ?_⟩
  rcases hs with rfl | ⟨hact, rfl⟩ | ⟨hidle, rfl⟩ | ⟨hidle, err, rfl⟩
  · exact hdead
  · intro _
    show s.lastTick - s.now ≤ s.world.sm.timeoutDuration
    rw [hto]
    linarith
  · intro _
    show s.lastTick - s.now ≤ s.world.sm.timeoutDuration
    rw [hto]
    linarith
  · exact hdead

theorem timedInv_tick {s : Timed} (env : Env) (hi : TimedInv s) (hnow : env.now = s.now) :
    TimedInv { s with world := monitorTick env s.world, lastTick := s.now } := by
  obtain ⟨hinv, hle, hint, hdead⟩ := hi
  have hinv' : SessionInv (monitorTick env s.world) := sessionInv_shape hinv (monitorTick_shape env s.world)
  refine ⟨hinv', le_refl _, ?_, ?_⟩
  · show s.now - s.now ≤ monitorInterval
    have := interval_nonneg
    linarith
  · have hto : s.world.sm.timeoutDuration = 5 * Minute := hinv.2.2.2.1
    have hhi : s.world.sm.timeoutDuration < MaxDuration := by
      rw [hto]
      decide
    by_cases hc : s.world.sm.isActive = true ∧
        Since env.now s.world.sm.lastHeartbeat > s.world.sm.timeoutDuration
    · rw [monitorTick_fire env s.world hc.1 hc.2]
      intro h
      cases h
    · rw [monitorTick_skip env s.world hc]
      intro hact
      show s.now - s.world.sm.lastHeartbeat ≤ s.world.sm.timeoutDuration
      have hng : ¬ env.now - s.world.sm.lastHeartbeat > s.world.sm.timeoutDuration :=
        fun h => hc ⟨hact, since_gt_of _ _ _ hhi h⟩
      rw [hnow] at hng
      exact not_lt.mp hng

theorem treachable_inv {s : Timed} (hr : TReachable s) : TimedInv s := by
  induction hr with
  | init t0 =>
    refine ⟨sessionInv_init, le_refl _, ?_, fun h => ?_⟩
    · show t0 - t0 ≤ monitorInterval
      have := interval_nonneg
      linarith
    · simp [NewStreamManager] at h
  | @step s s' _ hs ih =>
    cases hs with
    | delay d _ hd hnext =>
      obtain ⟨hinv, hle, hint, hdead⟩ := ih
      have hle' : s.lastTick ≤ s.now + d := by linarith
      exact ⟨hinv, hle', hnext, hdead⟩
    | initiate env r _ hnow =>
      have hshape := initiateEndpoint_shape env r s.world
      rw [hnow] at hshape
      exact timedInv_handler ih hshape
    | heartbeat env r _ hnow =>
      have hshape := heartbeatEndpoint_shape env r s.world
      rw [hnow] at hshape
      exact timedInv_handler ih hshape
    | tick env _ hnow => exact timedInv_tick env ih hnow

/-! ## Bounded staleness -/

/-- C8: in every reachable state of the timed system (time never decreases,
steps are atomic, and the clock never runs more than one monitor interval of
30 s past the latest tick), the timeout is five minutes and an active session
has `now - lastHeartbeat ≤ timeoutDuration + monitorInterval`.  Moreover the
latest tick of an active session was not after its deadline
`lastHeartbeat + timeoutDuration`, so a monitor iteration that finds an active
session past its deadline is the first one after the deadline, and it comes
no later than one monitor interval after the latest tick; that iteration ends
idle, issues exactly one supervisor stop, and leaves a trace that splits at
the successful start which opened the session, followed by no start and by
exactly that one stop. -/
theorem bounded_staleness (s : Timed) (hr : TReachable s) :
    (s.world.sm.isActive = true →
      s.now - s.world.sm.lastHeartbeat ≤ s.world.sm.timeoutDuration + monitorInterval) ∧
    s.world.sm.timeoutDuration = 5 * Minute ∧ monitorInterval = 30 * Second ∧
    s.lastTick ≤ s.now ∧ s.now - s.lastTick ≤ monitorInterval ∧
    (s.world.sm.isActive = true →
      s.lastTick - s.world.sm.lastHeartbeat ≤ s.world.sm.timeoutDuration) ∧
    (∀ env : Env, env.now = s.now → s.world.sm.isActive = true →
      s.now - s.world.sm.lastHeartbeat > s.world.sm.timeoutDuration →
      (monitorTick env s.world).sm.isActive = false ∧
      (issued s.world.trace (monitorTick env s.world).trace).filter Event.isStop =
        [Event.stop env.stopErr] ∧
      ∃ pre post, (monitorTick env s.world).trace = pre ++ Event.start none :: post ∧
        (sessionKinds pre).length % 2 = 0 ∧
        post.filter Event.isStart = [] ∧
        post.filter Event.isStop = [Event.stop env.stopErr]) := by
  obtain ⟨hinv, hle, hint, hdead⟩ := treachable_inv hr
  obtain ⟨-, -, -, hto, hsplit⟩ := hinv
  refine ⟨fun hact => ?_, hto, rfl, hle, hint, hdead, fun env hnow hact hlate => ?_⟩
  · have := hdead hact
    linarith
  · rw [← hnow] at hlate
    have hhi : s.world.sm.timeoutDuration < MaxDuration := by
      rw [hto]
      decide
    rw [monitorTick_fire env s.world hact (since_gt_of _ _ _ hhi hlate)]
    obtain ⟨pre, post, ht, hev, hpost⟩ := hsplit hact
    refine ⟨rfl, ?_, pre, post ++ stopEvents env, ?_, hev, ?_, ?_⟩
    · show (issued s.world.trace (s.world.trace ++ stopEvents env)).filter Event.isStop = _
      rw [issued_append, stopEvents_filter_isStop]
    · show s.world.trace ++ stopEvents env = _
      rw [ht]
      simp
    · rw [List.filter_append, stopEvents_filter_isStart, List.append_nil]
      exact List.filter_eq_nil_iff.mpr (fun e he => by simp [(hpost e he).1])
    · rw [List.filter_append, stopEvents_filter_isStop]
      have : post.filter Event.isStop = [] :=
        List.filter_eq_nil_iff.mpr (fun e he => by simp [(hpost e he).2])
      rw [this]
      rfl

/-- Witness of C8 on the daemon started at 400 s with the stream initiated at
once. -/
theorem bounded_staleness_witness :
    TReachable startedTimed ∧ startedTimed.world.sm.isActive = true ∧
    startedTimed.now - startedTimed.world.sm.lastHeartbeat ≤
      startedTimed.world.sm.timeoutDuration + monitorInterval :=
  ⟨TReachable.step (TReachable.init (400 * Second))
      (TStep.initiate calmEnv post _ rfl),
    by decide,
    (bounded_staleness startedTimed
      (TReachable.step (TReachable.init (400 * Second))
        (TStep.initiate calmEnv post _ rfl))).1 (by decide)⟩

end Rtsp2Hls
